import Mathlib

/-!
Verification development for the EDMS archiving frontend.

Shallow embedding of the employee-archive form logic (the dependent form
engine, the debounced searchable select, the submit validation and
serialization) and of the generic API pass-through proxy route.  Machine
behaviour that the TypeScript source expresses through React state updates is
modelled as pure state-transformation functions; asynchronous fetch traces are
modelled as explicit event sequences folded over a component state.
-/

namespace EDMS

/-! ## JavaScript string primitives used by the source -/

/-- `charsStartWith pat cs` : the char list `cs` starts with `pat`. -/
def charsStartWith : List Char → List Char → Bool
  | [], _ => true
  | _ :: _, [] => false
  | p :: ps, c :: cs => p == c && charsStartWith ps cs

/-- `charsInclude pat cs` : `pat` occurs as a contiguous run inside `cs`. -/
def charsInclude (pat : List Char) : List Char → Bool
  | [] => pat.isEmpty
  | c :: cs => charsStartWith pat (c :: cs) || charsInclude pat cs

/-- JavaScript `s.includes(pat)` (case-sensitive substring test). -/
def jsIncludes (s pat : String) : Bool := charsInclude pat.data s.data

/-- JavaScript `s.toLowerCase()` restricted to the per-character lowering the
source relies on. -/
def toLowerStr (s : String) : String := String.mk (s.data.map Char.toLower)

/-- Leading decimal digits of a char list (how `parseInt(s, 10)` scans). -/
def leadingDigits : List Char → List Char
  | [] => []
  | c :: cs => if c.isDigit then c :: leadingDigits cs else []

/-- JavaScript `parseInt(s, 10)` on the canonical inputs the form produces:
`none` models `NaN` (no leading digit). -/
def parseIntJS (s : String) : Option Nat :=
  let ds := leadingDigits s.data
  if ds.isEmpty then none
  else some (ds.foldl (fun n c => 10 * n + (c.toNat - '0'.toNat)) 0)

/-! ## Data model (types from the source file) -/

/-- `type Status = { system_id; name_english; name_arabic }`. -/
structure Status where
  system_id : Nat
  name_english : String
  name_arabic : String
deriving Repr, DecidableEq

/-- `type DocType = { system_id; name }`. -/
structure DocType where
  system_id : Nat
  name : String
deriving Repr, DecidableEq

/-- `type ExistingDocument` (a Persisted attachment). -/
structure ExistingDocument where
  system_id : Nat
  docnumber : Nat
  expiry : Option String
  doc_type_id : Nat
  legislation_ids : List Nat
  doc_name : String
deriving Repr, DecidableEq

/-- `type NewDocument` (a Pending attachment); the `File` handle is
abstracted to its name, `none` models a row with no file chosen. -/
structure NewDocument where
  doc_type_id : String
  doc_type_name : String
  file : Option String
  expiry : String
  legislation_ids : List String
deriving Repr, DecidableEq

/-- The scalar `formData` record of `EmployeeForm`. -/
structure EmployeeFormData where
  employee_id : String
  name_en : String
  name_ar : String
  employeeNumber : String
  hireDate : String
  jobTitle : String
  nationality : String
  email : String
  phone : String
  manager : String
  department : String
  section_ : String
  status_id : String
deriving Repr, DecidableEq

/-- The profile object fetched from `/api/hr_employees/{id}`; fields the
source reads with `|| ''` are `Option String`. -/
structure HrEmployeeDetails where
  system_id : String
  fullname_en : Option String
  fullname_ar : Option String
  empno : Option String
  job_name : Option String
  department : Option String
  section_ : Option String
  email : Option String
  mobile : Option String
  supervisorname : Option String
  nationality : Option String
deriving Repr, DecidableEq

/-! ## C2: `handleEmployeeSelect` (selectBaseIdentity) -/

/-- The `setFormData({...})` object literal built from a fetched profile in
`handleEmployeeSelect`: every scalar is seeded from the profile (with `|| ''`),
`hireDate` and `status_id` are reset to `''`. -/
def seedFormData (details : HrEmployeeDetails) : EmployeeFormData :=
  { employee_id := details.system_id
    name_en := details.fullname_en.getD ""
    name_ar := details.fullname_ar.getD ""
    employeeNumber := details.empno.getD ""
    jobTitle := details.job_name.getD ""
    department := details.department.getD ""
    section_ := details.section_.getD ""
    email := details.email.getD ""
    phone := details.mobile.getD ""
    manager := details.supervisorname.getD ""
    nationality := details.nationality.getD ""
    hireDate := ""
    status_id := "" }

/-- Result of one `handleEmployeeSelect` call: the next `formData`, the next
`isFormLocked`, and whether a profile fetch was issued. -/
structure SelectBaseResult where
  formData : EmployeeFormData
  isFormLocked : Bool
  fetchIssued : Bool
deriving Repr, DecidableEq

/-- `handleEmployeeSelect(employeeId)`: on falsy (empty) id it sets
`isFormLocked = true` and returns before any fetch, leaving `formData` as it
was; otherwise it fetches the profile (`details`), seeds `formData` from it
and sets `isFormLocked = false`. -/
def handleEmployeeSelect (employeeId : String) (current : EmployeeFormData)
    (details : HrEmployeeDetails) : SelectBaseResult :=
  if employeeId == "" then
    { formData := current, isFormLocked := true, fetchIssued := false }
  else
    { formData := seedFormData details, isFormLocked := false, fetchIssued := true }

/-! ## C1: derived-status effect -/

/-- `judicialCardDocTypeId` memo: first catalog type whose name includes
`'Judicial Card'` or the Arabic equivalent. -/
def judicialCardDocTypeId (all_types : List DocType) : Option Nat :=
  (all_types.find? (fun dt =>
    jsIncludes dt.name "Judicial Card" || jsIncludes dt.name "بطاقة الضبطية")).map
    (fun dt => dt.system_id)

/-- `warrantDecisionDocTypeId` memo: first catalog type whose name includes
`'Warrant Decisions'` or the Arabic equivalent. -/
def warrantDecisionDocTypeId (all_types : List DocType) : Option Nat :=
  (all_types.find? (fun dt =>
    jsIncludes dt.name "Warrant Decisions" || jsIncludes dt.name "القرارات الخاصة بالضبطية")).map
    (fun dt => dt.system_id)

/-- `allJudicialCardDocs.length > 0` from the derived-status effect: some
Persisted attachment has `doc_type_id === j`, or some Pending attachment has
`doc_type_id === j.toString()`. -/
def hasJudicialCardB (j : Nat) (existingDocuments : List ExistingDocument)
    (newDocuments : List NewDocument) : Bool :=
  decide (0 < (existingDocuments.filter (fun d => d.doc_type_id == j)).length
            + (newDocuments.filter (fun d => d.doc_type_id == toString j)).length)

/-- The derived-status `useEffect` body: returns the next `status_id` given
the current one (`cur`).  Early-returns (no change) when the form is locked,
when no judicial-card type exists in the catalog, or when the status catalog
is empty; otherwise sets `status_id` to the `Active` entry's id when a
judicial-card attachment exists and that entry is found, to the `Inactive`
entry's id when none exists and that entry is found, and leaves it untouched
in the remaining cases. -/
def deriveStatusId (isFormLocked : Bool) (statuses : List Status)
    (judicialId : Option Nat) (existingDocuments : List ExistingDocument)
    (newDocuments : List NewDocument) (cur : String) : String :=
  if isFormLocked then cur
  else
    match judicialId with
    | none => cur
    | some j =>
      if statuses.length == 0 then cur
      else
        let hasJudicialCard := hasJudicialCardB j existingDocuments newDocuments
        let activeStatus := statuses.find? (fun s => s.name_english == "Active")
        let inactiveStatus := statuses.find? (fun s => s.name_english == "Inactive")
        if hasJudicialCard then
          match activeStatus with
          | some a => toString a.system_id
          | none => cur
        else
          match inactiveStatus with
          | some i => toString i.system_id
          | none => cur

/-! ## C8: legislation toggles -/

/-- The `legislation_ids` branch of `handleNewDocumentChange`:
`isChecked ? ids.filter(id => id !== legId) : [...ids, legId]`. -/
def toggleNewDocLegIds (ids : List String) (legId : String) : List String :=
  if ids.contains legId then ids.filter (fun id => id != legId) else ids ++ [legId]

/-- The toggle inside `handleExistingDocLegislationChange` for one Persisted
row's `legislation_ids`. -/
def toggleExistingLegIds (ids : List Nat) (legId : Nat) : List Nat :=
  if ids.contains legId then ids.filter (fun id => id != legId) else ids ++ [legId]

/-- `handleExistingDocLegislationChange(docSystemId, legislationId)`: maps
over the Persisted list and toggles membership on the matching row. -/
def toggleExistingDocLegislation (docs : List ExistingDocument)
    (docSystemId legislationId : Nat) : List ExistingDocument :=
  docs.map (fun doc =>
    if doc.system_id == docSystemId then
      { doc with legislation_ids := toggleExistingLegIds doc.legislation_ids legislationId }
    else doc)

/-! ## C7: removal of Persisted attachments -/

/-- The document-related slice of the form state:
`existingDocuments` and `deletedDocIds`. -/
structure ArchiveDocsState where
  existingDocuments : List ExistingDocument
  deletedDocIds : List Nat
deriving Repr, DecidableEq

/-- `handleDeleteExistingDoc(docId)`: filters the row out of
`existingDocuments` and appends its id to `deletedDocIds`, in one handler. -/
def deleteExistingDoc (s : ArchiveDocsState) (docId : Nat) : ArchiveDocsState :=
  { existingDocuments := s.existingDocuments.filter (fun doc => doc.system_id != docId)
    deletedDocIds := s.deletedDocIds ++ [docId] }

/-- The ids present in the Persisted list. -/
def existingIds (s : ArchiveDocsState) : List Nat :=
  s.existingDocuments.map (fun d => d.system_id)

/-- One user-visible operation on the document slice between hydrates: the
delete button exists only on a rendered Persisted row (hence the membership
premise), and the legislation checkboxes toggle a row in place. -/
inductive ArchiveDocsStep : ArchiveDocsState → ArchiveDocsState → Prop
  | delete (s : ArchiveDocsState) (docId : Nat)
      (h : docId ∈ existingIds s) :
      ArchiveDocsStep s (deleteExistingDoc s docId)
  | toggle (s : ArchiveDocsState) (docSystemId legId : Nat) :
      ArchiveDocsStep s
        { s with existingDocuments :=
            toggleExistingDocLegislation s.existingDocuments docSystemId legId }

/-- Zero or more operations after a hydrate. -/
def ArchiveDocsReach (s t : ArchiveDocsState) : Prop :=
  Relation.ReflTransGen ArchiveDocsStep s t

/-- The state right after a hydrate: server documents, empty deletion set. -/
def hydrated (docs : List ExistingDocument) : ArchiveDocsState :=
  { existingDocuments := docs, deletedDocIds := [] }

/-! ## C5 / C10: submit validation and serialization -/

/-- A multipart form value: a string field or an attached file. -/
inductive FormValue where
  | str (s : String)
  | file (name : String)
deriving Repr, DecidableEq

/-- `true` when the expiry-validation loop rejects this Pending row:
`doc.doc_type_id` truthy, its parsed id is in `expiryDocTypeIds`, and
`doc.expiry` falsy. -/
def expiryViolation (expiryDocTypeIds : List Nat) (doc : NewDocument) : Bool :=
  doc.doc_type_id != "" &&
  (match parseIntJS doc.doc_type_id with
   | some n => expiryDocTypeIds.contains n
   | none => false) &&
  doc.expiry == ""

/-- The validation message, with the display name looked up in `all_types`
(`docType?.name` interpolates to `undefined` when the lookup fails). -/
def expiryErrorMsg (all_types : List DocType) (doc : NewDocument) : String :=
  let nm := match all_types.find? (fun t => toString t.system_id == doc.doc_type_id) with
            | some t => t.name
            | none => "undefined"
  "Expiry date is required for document type \"" ++ nm ++ "\"."

/-- The `for (const doc of newDocuments)` loop of `handleSubmit`: first
violating row (in order) yields its message. -/
def findExpiryError (all_types : List DocType) (expiryDocTypeIds : List Nat) :
    List NewDocument → Option String
  | [] => none
  | doc :: rest =>
    if expiryViolation expiryDocTypeIds doc then some (expiryErrorMsg all_types doc)
    else findExpiryError all_types expiryDocTypeIds rest

/-- Multipart entries contributed by one Pending row at `forEach` index
`index`: present only when `doc.file` and `doc.doc_type_id` are both truthy. -/
def docEntries (index : Nat) (doc : NewDocument) : List (String × FormValue) :=
  match doc.file with
  | none => []
  | some f =>
    if doc.doc_type_id == "" then []
    else
      [(s!"new_documents[{index}][file]", FormValue.file f),
       (s!"new_documents[{index}][doc_type_id]", FormValue.str doc.doc_type_id),
       (s!"new_documents[{index}][doc_type_name]", FormValue.str doc.doc_type_name),
       (s!"new_documents[{index}][expiry]", FormValue.str doc.expiry)]
      ++ doc.legislation_ids.map
          (fun legId => (s!"new_documents[{index}][legislation_ids][]", FormValue.str legId))

/-- `newDocuments.forEach((doc, index) => ...)` serialization: each row keeps
its position in the full Pending list as its multipart index. -/
def serializeNewDocuments (docs : List NewDocument) : List (String × FormValue) :=
  (docs.enum.map (fun p => docEntries p.1 p.2)).flatten

/-- `doc.file && doc.doc_type_id`: the inclusion test of the serializer. -/
def rowIncluded (doc : NewDocument) : Bool :=
  doc.file.isSome && doc.doc_type_id != ""

/-- The submission payload assembled by `handleSubmit` after validation. -/
structure SubmissionPayload where
  employee_data : EmployeeFormData
  newDocEntries : List (String × FormValue)
  deleted_documents : List Nat
  updated_documents : Option (List (Nat × List Nat))
  method : String
deriving Repr, DecidableEq

/-- Outcome of one `handleSubmit` call; only the `request` constructor
corresponds to a network request being issued. -/
inductive SubmitOutcome where
  | viewerBlocked
  | validationError (msg : String)
  | request (payload : SubmissionPayload)
deriving Repr, DecidableEq

/-- The `submissionData` assembled by `handleSubmit` once validation passes
(`updated_documents` only in edit mode, restricted to warrant-decision
Persisted rows). -/
def buildSubmission (formData : EmployeeFormData)
    (newDocuments : List NewDocument) (existingDocuments : List ExistingDocument)
    (deletedDocIds : List Nat) (employeeToEditId : Option Nat)
    (warrantId : Option Nat) : SubmissionPayload :=
  { employee_data := formData
    newDocEntries := serializeNewDocuments newDocuments
    deleted_documents := deletedDocIds
    updated_documents :=
      match employeeToEditId with
      | some _ =>
        some ((existingDocuments.filter
                (fun doc => warrantId == some doc.doc_type_id)).map
                (fun doc => (doc.system_id, doc.legislation_ids)))
      | none => none
    method := match employeeToEditId with | some _ => "PUT" | none => "POST" }

/-- `handleSubmit` up to the `fetch`: viewer short-circuit, the two
validations in order, then payload assembly. -/
def handleSubmit (isViewer : Bool) (all_types : List DocType)
    (expiryDocTypeIds : List Nat) (formData : EmployeeFormData)
    (newDocuments : List NewDocument) (existingDocuments : List ExistingDocument)
    (deletedDocIds : List Nat) (employeeToEditId : Option Nat)
    (warrantId : Option Nat) : SubmitOutcome :=
  if isViewer then SubmitOutcome.viewerBlocked
  else if formData.employee_id == "" then
    SubmitOutcome.validationError "An employee must be selected."
  else
    match findExpiryError all_types expiryDocTypeIds newDocuments with
    | some msg => SubmitOutcome.validationError msg
    | none =>
      SubmitOutcome.request (buildSubmission formData newDocuments
        existingDocuments deletedDocIds employeeToEditId warrantId)

/-! ## C6: one-per-type constraint on document types -/

/-- The `usedDocTypeIds` memo: type ids of Persisted rows whose `doc_name`
does not contain `'other'` (lower-cased), plus parsed type ids of Pending rows
(truthy, i.e. nonzero) whose `doc_type_name` does not contain `'other'`. -/
def usedDocTypeIds (existingDocuments : List ExistingDocument)
    (newDocuments : List NewDocument) : List Nat :=
  (existingDocuments.filter
      (fun doc => !(jsIncludes (toLowerStr doc.doc_name) "other"))).map
      (fun doc => doc.doc_type_id)
  ++ newDocuments.filterMap (fun doc =>
      match parseIntJS doc.doc_type_id with
      | some n =>
        if n != 0 && !(jsIncludes (toLowerStr doc.doc_type_name) "other") then some n
        else none
      | none => none)

/-- The `disabled` expression of a document-type `<option>` in the Pending
row `row`: the type is used somewhere and is not this row's current value. -/
def docTypeOptionDisabled (existingDocuments : List ExistingDocument)
    (newDocuments : List NewDocument) (typeId : Nat) (row : NewDocument) : Bool :=
  (usedDocTypeIds existingDocuments newDocuments).contains typeId &&
  toString typeId != row.doc_type_id

/-! ## C3: the 300 ms debounce of `SearchableEmployeeSelect` -/

/-- A keystroke: the time it lands and the full text after it. -/
structure Keystroke where
  t : Nat
  text : String
deriving Repr, DecidableEq

/-- Timer semantics of the debounce `useEffect`: each keystroke schedules a
call at `t + 300`; the next keystroke's cleanup clears a still-pending timer.
Returns the keystrokes whose timers actually fire. -/
def debounceFires : List Keystroke → List Keystroke
  | [] => []
  | [k] => [k]
  | k1 :: k2 :: rest =>
    (if k2.t < k1.t + 300 then [] else [k1]) ++ debounceFires (k2 :: rest)

/-- The guard at the top of `fetchEmployees`: skip when already loading, or
when exhausted and the call is not a fresh search. -/
def fetchSkipped (isLoading hasMore isNewSearch : Bool) : Bool :=
  isLoading || (!hasMore && !isNewSearch)

/-- Search texts for which the component actually issues a network request:
every surviving debounce timer calls `fetchEmployees(text, 1, true)`, which
issues a fetch unless its guard skips it.  `loadingAt`/`hasMoreAt` give the
`loadingStatusRef` contents at a fire time. -/
def issuedFetches (loadingAt hasMoreAt : Nat → Bool) (ks : List Keystroke) :
    List String :=
  (debounceFires ks).filterMap (fun k =>
    if fetchSkipped (loadingAt (k.t + 300)) (hasMoreAt (k.t + 300)) true then none
    else some k.text)

/-! ## C4: cancellation semantics of `fetchEmployees` -/

/-- A response body for the HR employee search (items abstracted to ids). -/
structure SrcResponse where
  employees : List Nat
  hasMore : Bool
deriving Repr, DecidableEq

/-- One event in the life of a `SearchableEmployeeSelect` instance:
a `fetchEmployees` call that passed its guard (`issue`), or the settlement of
request `reqId` (success with a parsed body, or rejection with an error
name — an aborted fetch rejects with name `AbortError`). -/
inductive SrcEvent where
  | issue (isNewSearch : Bool)
  | success (reqId : Nat) (resp : SrcResponse)
  | failure (reqId : Nat) (errName : String)
deriving Repr, DecidableEq

/-- Component state: the result list and `hasMore`, the id the next request
will get, the request held by `fetchController.current` (if any), the set of
requests whose controller was aborted, each request's `isNewSearch` flag, and
the diagnostics log fed by `console.error`. -/
structure SrcState where
  employees : List Nat
  hasMore : Bool
  nextReqId : Nat
  inFlight : Option Nat
  aborted : List Nat
  flags : List (Nat × Bool)
  errorLog : List String
deriving Repr, DecidableEq

/-- Initial component state (`employees=[]`, `hasMore=true`, no controller). -/
def srcInit : SrcState :=
  { employees := [], hasMore := true, nextReqId := 0, inFlight := none
    aborted := [], flags := [], errorLog := [] }

/-- One step of the component.  `issue` aborts the previous controller
(`fetchController.current.abort()`) before creating a new one.  A settled
request applies its body only if its controller was never aborted
(`setEmployees(prev => isNewSearch ? data.employees : [...prev, ...])`,
`setHasMore`); the catch clause logs every rejection whose name is not
`AbortError` and swallows the rest. -/
def srcStep (s : SrcState) : SrcEvent → SrcState
  | SrcEvent.issue isNewSearch =>
    let ab := match s.inFlight with
              | some k => k :: s.aborted
              | none => s.aborted
    { s with aborted := ab, inFlight := some s.nextReqId,
             nextReqId := s.nextReqId + 1,
             flags := (s.nextReqId, isNewSearch) :: s.flags }
  | SrcEvent.success k resp =>
    if s.aborted.contains k then s
    else
      { s with
        employees :=
          if (s.flags.lookup k).getD true then resp.employees
          else s.employees ++ resp.employees,
        hasMore := resp.hasMore }
  | SrcEvent.failure _ errName =>
    if errName != "AbortError" then { s with errorLog := s.errorLog ++ [errName] }
    else s

/-- Folding a whole event trace. -/
def runTrace (s : SrcState) : List SrcEvent → SrcState
  | [] => s
  | e :: es => runTrace (srcStep s e) es

/-- The responses a trace actually applies, in order: for each success event
of a request that was not aborted at that point, its `isNewSearch` flag and
its item payload. -/
def appliedResponses (s : SrcState) : List SrcEvent → List (Bool × List Nat)
  | [] => []
  | e :: es =>
    (match e with
     | SrcEvent.success k resp =>
       if s.aborted.contains k then []
       else [((s.flags.lookup k).getD true, resp.employees)]
     | _ => []) ++ appliedResponses (srcStep s e) es

/-- Replaying applied responses over a result list: a fresh search replaces,
a pagination response appends. -/
def applyAll (init : List Nat) : List (Bool × List Nat) → List Nat
  | [] => init
  | (isNewSearch, items) :: rest =>
    applyAll (if isNewSearch then items else init ++ items) rest

/-! ## C9: the generic pass-through proxy route -/

/-- The request data the proxy reads. -/
structure ProxyRequest where
  proxySegments : List String
  search : String
  method : String
  headers : List (String × String)
  body : Option (List Nat)
deriving Repr, DecidableEq

/-- An upstream response as `fetch` resolves it. -/
structure UpstreamResponse where
  status : Nat
  statusText : String
  headers : List (String × String)
  body : Option (List Nat)
deriving Repr, DecidableEq

/-- A response body produced by the route: a `NextResponse.json({error})`
payload or a relayed upstream stream. -/
inductive ProxyBody where
  | jsonError (msg : String)
  | relayed (body : Option (List Nat))
deriving Repr, DecidableEq

/-- The response the route returns. -/
structure ProxyResponse where
  status : Nat
  statusText : String
  headers : List (String × String)
  body : ProxyBody
deriving Repr, DecidableEq

/-- `proxyHandler`, with the upstream `fetch` modelled as a function from the
target URL to either a thrown connection error or a response.  Returns the
route's response together with the list of upstream URLs contacted. -/
def proxyHandler (backendUrl : Option String) (req : ProxyRequest)
    (network : String → Except String UpstreamResponse) :
    ProxyResponse × List String :=
  let apiPath := "/api/" ++ String.intercalate "/" req.proxySegments
  match backendUrl with
  | none =>
    ({ status := 500, statusText := ""
       headers := []
       body := ProxyBody.jsonError "Backend API URL is not configured on the server." }, [])
  | some burl =>
    let targetUrl := burl ++ apiPath ++ req.search
    match network targetUrl with
    | Except.error _ =>
      ({ status := 502, statusText := ""
         headers := []
         body := ProxyBody.jsonError "Error forwarding request to the backend." },
       [targetUrl])
    | Except.ok r =>
      ({ status := r.status, statusText := r.statusText
         headers := r.headers
         body := ProxyBody.relayed r.body }, [targetUrl])

/-- Invariant of the document slice: Persisted ids are distinct, marked ids
are distinct, and no id is simultaneously Persisted and marked. -/
def DocsInv (s : ArchiveDocsState) : Prop :=
  (existingIds s).Nodup ∧ s.deletedDocIds.Nodup ∧
  ∀ id ∈ s.deletedDocIds, id ∉ existingIds s

/-- `true` exactly on multipart values that carry a file. -/
def isFileValue : FormValue → Bool
  | FormValue.file _ => true
  | FormValue.str _ => false

/-! # Theorems -/

/-! ## Helper lemmas -/

theorem toggleNewDocLegIds_mem_self (ids : List String) (legId : String) :
    legId ∈ toggleNewDocLegIds ids legId ↔ legId ∉ ids := by
  by_cases h : legId ∈ ids <;>
    simp [toggleNewDocLegIds, List.elem_iff, h, List.mem_filter]

theorem toggleNewDocLegIds_mem (ids : List String) (legId x : String) :
    x ∈ toggleNewDocLegIds ids legId ↔ (x ∈ ids ∧ x ≠ legId) ∨ (x = legId ∧ legId ∉ ids) := by
  by_cases h : legId ∈ ids <;>
    by_cases hx : x = legId <;>
      simp [toggleNewDocLegIds, List.elem_iff, h, hx, List.mem_filter]

theorem toggleNewDocLegIds_roundtrip (ids : List String) (legId x : String) :
    x ∈ toggleNewDocLegIds (toggleNewDocLegIds ids legId) legId ↔ x ∈ ids := by
  by_cases hx : x = legId
  · subst hx
    rw [toggleNewDocLegIds_mem_self, toggleNewDocLegIds_mem_self]
    tauto
  · rw [toggleNewDocLegIds_mem, toggleNewDocLegIds_mem]
    simp [hx]

theorem toggleExistingLegIds_mem_self (ids : List Nat) (legId : Nat) :
    legId ∈ toggleExistingLegIds ids legId ↔ legId ∉ ids := by
  by_cases h : legId ∈ ids <;>
    simp [toggleExistingLegIds, List.elem_iff, h, List.mem_filter]

theorem toggleExistingLegIds_mem (ids : List Nat) (legId x : Nat) :
    x ∈ toggleExistingLegIds ids legId ↔ (x ∈ ids ∧ x ≠ legId) ∨ (x = legId ∧ legId ∉ ids) := by
  by_cases h : legId ∈ ids <;>
    by_cases hx : x = legId <;>
      simp [toggleExistingLegIds, List.elem_iff, h, hx, List.mem_filter]

theorem toggleExistingLegIds_roundtrip (ids : List Nat) (legId x : Nat) :
    x ∈ toggleExistingLegIds (toggleExistingLegIds ids legId) legId ↔ x ∈ ids := by
  by_cases hx : x = legId
  · subst hx
    rw [toggleExistingLegIds_mem_self, toggleExistingLegIds_mem_self]
    tauto
  · rw [toggleExistingLegIds_mem, toggleExistingLegIds_mem]
    simp [hx]

/-! ## C8 -/

/-- C8: toggling a legislation id is a self-inverse on set membership, for
Pending rows (`handleNewDocumentChange`, string ids) and Persisted rows
(`handleExistingDocLegislationChange`, numeric ids): a single toggle adds the
id exactly when it was absent, and toggling twice restores every membership,
including row-by-row through the Persisted-list operation. -/
theorem legislationToggle_roundtrip :
    (∀ (ids : List String) (legId x : String),
        x ∈ toggleNewDocLegIds (toggleNewDocLegIds ids legId) legId ↔ x ∈ ids) ∧
    (∀ (ids : List String) (legId : String),
        legId ∈ toggleNewDocLegIds ids legId ↔ legId ∉ ids) ∧
    (∀ (ids : List Nat) (legId x : Nat),
        x ∈ toggleExistingLegIds (toggleExistingLegIds ids legId) legId ↔ x ∈ ids) ∧
    (∀ (ids : List Nat) (legId : Nat),
        legId ∈ toggleExistingLegIds ids legId ↔ legId ∉ ids) ∧
    (∀ (docs : List ExistingDocument) (a b x i : Nat),
        ((toggleExistingDocLegislation (toggleExistingDocLegislation docs a b) a b)[i]?).map
            (fun d => decide (x ∈ d.legislation_ids))
          = (docs[i]?).map (fun d => decide (x ∈ d.legislation_ids))) := by
  refine ⟨toggleNewDocLegIds_roundtrip, toggleNewDocLegIds_mem_self,
          toggleExistingLegIds_roundtrip, toggleExistingLegIds_mem_self, ?_⟩
  intro docs a b x i
  simp only [toggleExistingDocLegislation, List.getElem?_map, Option.map_map]
  cases hd : docs[i]? with
  | none => rfl
  | some d =>
    simp only [Option.map_some', Function.comp_apply]
    by_cases hm : d.system_id = a
    · subst hm
      simp only [beq_self_eq_true, if_true]
      exact congrArg some (decide_eq_decide.mpr (toggleExistingLegIds_roundtrip d.legislation_ids b x))
    · have hb : (d.system_id == a) = false := beq_eq_false_iff_ne.mpr hm
      simp only [hb, Bool.false_eq_true, if_false]

/-! ## C2 -/

/-- C2 counterexample: selecting the empty id re-locks the form but does
*not* clear previously seeded scalar fields — `handleEmployeeSelect` returns
before touching `formData`, so `name_en` keeps its seeded value `"John"`. -/
theorem selectBaseIdentity_clear_counterexample :
    (handleEmployeeSelect ""
        ⟨"42", "John", "جون", "E1", "", "Clerk", "", "", "", "", "", "", ""⟩
        ⟨"42", none, none, none, none, none, none, none, none, none, none⟩).isFormLocked
      = true ∧
    (handleEmployeeSelect ""
        ⟨"42", "John", "جون", "E1", "", "Clerk", "", "", "", "", "", "", ""⟩
        ⟨"42", none, none, none, none, none, none, none, none, none, none⟩).formData.name_en
      = "John" ∧
    "John" ≠ "" := by
  refine ⟨rfl, rfl, by decide⟩

/-- C2 (amended): with an empty id, `handleEmployeeSelect` sets
`isFormLocked = true`, issues no profile fetch, and leaves the scalar fields
*unchanged* (it does not clear them); with a non-empty id whose fetch
succeeds, it seeds every scalar field from the fetched profile and sets
`isFormLocked = false`. -/
theorem selectBaseIdentity_lock_behavior (current : EmployeeFormData)
    (details : HrEmployeeDetails) :
    (handleEmployeeSelect "" current details
      = { formData := current, isFormLocked := true, fetchIssued := false }) ∧
    (∀ id, id ≠ "" →
      handleEmployeeSelect id current details
        = { formData := seedFormData details, isFormLocked := false, fetchIssued := true }) := by
  refine ⟨rfl, fun id hid => ?_⟩
  have h : (id == "") = false := beq_eq_false_iff_ne.mpr hid
  simp [handleEmployeeSelect, h]

/-- Witness for C2: selecting id `"42"` seeds the fields from the fetched
profile and unlocks the form. -/
theorem selectBaseIdentity_lock_behavior_witness :
    (handleEmployeeSelect "42"
        ⟨"", "", "", "", "", "", "", "", "", "", "", "", ""⟩
        ⟨"42", some "Jane", none, some "E2", none, none, none, none, none, none, none⟩)
      = { formData := ⟨"42", "Jane", "", "E2", "", "", "", "", "", "", "", "", ""⟩,
          isFormLocked := false, fetchIssued := true } := by
  have h := (selectBaseIdentity_lock_behavior
    ⟨"", "", "", "", "", "", "", "", "", "", "", "", ""⟩
    ⟨"42", some "Jane", none, some "E2", none, none, none, none, none, none, none⟩).2
    "42" (by decide)
  rw [h]
  rfl

/-! ## C9 -/

/-- C9: the pass-through proxy returns the fixed 500 error without contacting
any upstream when `BACKEND_URL` is absent, the fixed 502 error when the
upstream fetch throws, and otherwise relays the upstream status, status text,
headers and body verbatim. -/
theorem proxyHandler_spec (req : ProxyRequest)
    (network : String → Except String UpstreamResponse) :
    (proxyHandler none req network =
      ({ status := 500, statusText := "", headers := []
         body := ProxyBody.jsonError "Backend API URL is not configured on the server." },
       [])) ∧
    (∀ burl e,
      network (burl ++ ("/api/" ++ String.intercalate "/" req.proxySegments) ++ req.search)
          = Except.error e →
      proxyHandler (some burl) req network =
        ({ status := 502, statusText := "", headers := []
           body := ProxyBody.jsonError "Error forwarding request to the backend." },
         [burl ++ ("/api/" ++ String.intercalate "/" req.proxySegments) ++ req.search])) ∧
    (∀ burl r,
      network (burl ++ ("/api/" ++ String.intercalate "/" req.proxySegments) ++ req.search)
          = Except.ok r →
      proxyHandler (some burl) req network =
        ({ status := r.status, statusText := r.statusText, headers := r.headers
           body := ProxyBody.relayed r.body },
         [burl ++ ("/api/" ++ String.intercalate "/" req.proxySegments) ++ req.search])) := by
  refine ⟨rfl, ?_, ?_⟩
  · intro burl e h
    simp [proxyHandler, h]
  · intro burl r h
    simp [proxyHandler, h]

/-- Witness for C9: a concrete request against a failing and a succeeding
upstream. -/
theorem proxyHandler_spec_witness :
    (proxyHandler none ⟨["employees"], "?page=1", "GET", [], none⟩
        (fun _ => Except.error "ECONNREFUSED")).2 = [] ∧
    (proxyHandler (some "http://backend:5000") ⟨["employees"], "?page=1", "GET", [], none⟩
        (fun _ => Except.error "ECONNREFUSED")).1.status = 502 ∧
    (proxyHandler (some "http://backend:5000") ⟨["employees"], "?page=1", "GET", [], none⟩
        (fun _ => Except.ok ⟨200, "OK", [("content-type", "application/json")], some [123]⟩)).1
      = { status := 200, statusText := "OK"
          headers := [("content-type", "application/json")]
          body := ProxyBody.relayed (some [123]) } := by
  refine ⟨?_, ?_, ?_⟩
  · have h := (proxyHandler_spec ⟨["employees"], "?page=1", "GET", [], none⟩
      (fun _ => Except.error "ECONNREFUSED")).1
    rw [h]
  · have h := (proxyHandler_spec ⟨["employees"], "?page=1", "GET", [], none⟩
      (fun _ => Except.error "ECONNREFUSED")).2.1 "http://backend:5000" "ECONNREFUSED" rfl
    rw [h]
  · have h := (proxyHandler_spec ⟨["employees"], "?page=1", "GET", [], none⟩
      (fun _ => Except.ok ⟨200, "OK", [("content-type", "application/json")], some [123]⟩)).2.2
      "http://backend:5000" ⟨200, "OK", [("content-type", "application/json")], some [123]⟩ rfl
    rw [h]

/-! ## C1 -/

/-- C1 counterexample: the claim says that if *either* of the `Active` /
`Inactive` catalog entries is absent the status field is left untouched.  In
the code only the entry of the branch actually taken matters: with a
judicial-card attachment present and a catalog containing `Active` but no
`Inactive`, the effect still overwrites the status (here from `""` to `"1"`),
contradicting the claimed silent no-op. -/
theorem derivedStatus_claim_counterexample :
    deriveStatusId false [⟨1, "Active", "نشط"⟩] (some 7)
        [⟨10, 5, none, 7, [], "Judicial Card"⟩] [] "" = "1" ∧
    ("1" : String) ≠ "" := by
  exact ⟨by decide, by decide⟩

/-- C1 (amended): in an unlocked form with a judicial-card type designated,
the derived-status effect sets the status to the `Active` entry whenever some
attachment (Persisted or Pending) has the judicial-card type and that entry
exists, to the `Inactive` entry whenever no attachment has that type and that
entry exists, and leaves the status untouched when the entry required by the
branch taken is absent (the other entry's absence alone does not prevent the
update).  A locked form, a missing judicial-card type, or an empty status
catalog also leave the status untouched, and with zero attachments no
judicial card is present. -/
theorem derivedStatus_recompute_rule (statuses : List Status) (j : Nat)
    (ed : List ExistingDocument) (nd : List NewDocument) (cur : String) :
    (∀ (stats : List Status) (jid : Option Nat) (ed' : List ExistingDocument)
        (nd' : List NewDocument) (cur' : String),
        deriveStatusId true stats jid ed' nd' cur' = cur') ∧
    (deriveStatusId false statuses none ed nd cur = cur) ∧
    (hasJudicialCardB j ed nd = true →
      ∀ a, statuses.find? (fun s => s.name_english == "Active") = some a →
        deriveStatusId false statuses (some j) ed nd cur = toString a.system_id) ∧
    (hasJudicialCardB j ed nd = true →
      statuses.find? (fun s => s.name_english == "Active") = none →
        deriveStatusId false statuses (some j) ed nd cur = cur) ∧
    (hasJudicialCardB j ed nd = false →
      ∀ i, statuses.find? (fun s => s.name_english == "Inactive") = some i →
        deriveStatusId false statuses (some j) ed nd cur = toString i.system_id) ∧
    (hasJudicialCardB j ed nd = false →
      statuses.find? (fun s => s.name_english == "Inactive") = none →
        deriveStatusId false statuses (some j) ed nd cur = cur) ∧
    (hasJudicialCardB j [] [] = false) := by
  refine ⟨fun _ _ _ _ _ => rfl, rfl, ?_, ?_, ?_, ?_, by simp [hasJudicialCardB]⟩
  · intro hcard a hfind
    have hne : (statuses.length == 0) = false := by
      cases statuses with
      | nil => simp [List.find?] at hfind
      | cons s ss => rfl
    simp [deriveStatusId, hne, hcard, hfind]
  · intro hcard hfind
    cases hlen : (statuses.length == 0) with
    | true => simp [deriveStatusId, hlen]
    | false => simp [deriveStatusId, hlen, hcard, hfind]
  · intro hcard i hfind
    have hne : (statuses.length == 0) = false := by
      cases statuses with
      | nil => simp [List.find?] at hfind
      | cons s ss => rfl
    simp [deriveStatusId, hne, hcard, hfind]
  · intro hcard hfind
    cases hlen : (statuses.length == 0) with
    | true => simp [deriveStatusId, hlen]
    | false => simp [deriveStatusId, hlen, hcard, hfind]

/-- Witness for C1: the spec scenario with both catalog entries present and
judicial-card type `7`: zero attachments derive `Inactive` (`"2"`), one
judicial-card attachment derives `Active` (`"1"`), removing it reverts to
`Inactive` (`"2"`). -/
theorem derivedStatus_recompute_rule_witness :
    judicialCardDocTypeId [⟨7, "Judicial Card"⟩] = some 7 ∧
    deriveStatusId false [⟨1, "Active", "نشط"⟩, ⟨2, "Inactive", "غير نشط"⟩]
        (some 7) [] [] "" = "2" ∧
    deriveStatusId false [⟨1, "Active", "نشط"⟩, ⟨2, "Inactive", "غير نشط"⟩]
        (some 7) [⟨10, 5, none, 7, [], "Judicial Card"⟩] [] "2" = "1" ∧
    deriveStatusId false [⟨1, "Active", "نشط"⟩, ⟨2, "Inactive", "غير نشط"⟩]
        (some 7) [] [] "1" = "2" := by
  refine ⟨by decide, ?_, ?_, ?_⟩
  · exact (derivedStatus_recompute_rule _ 7 [] [] "").2.2.2.2.1 (by decide)
      ⟨2, "Inactive", "غير نشط"⟩ (by decide)
  · exact (derivedStatus_recompute_rule _ 7 [⟨10, 5, none, 7, [], "Judicial Card"⟩] [] "2").2.2.1
      (by decide) ⟨1, "Active", "نشط"⟩ (by decide)
  · exact (derivedStatus_recompute_rule _ 7 [] [] "1").2.2.2.2.1 (by decide)
      ⟨2, "Inactive", "غير نشط"⟩ (by decide)

/-! ## C5 -/

theorem findExpiryError_eq_first (all_types : List DocType) (eids : List Nat)
    (pre : List NewDocument) (doc : NewDocument) (post : List NewDocument)
    (hpre : ∀ d ∈ pre, expiryViolation eids d = false)
    (hdoc : expiryViolation eids doc = true) :
    findExpiryError all_types eids (pre ++ doc :: post)
      = some (expiryErrorMsg all_types doc) := by
  induction pre with
  | nil => simp [findExpiryError, hdoc]
  | cons p ps ih =>
    have hp : expiryViolation eids p = false := hpre p (by simp)
    simp only [List.cons_append, findExpiryError, hp, Bool.false_eq_true, if_false]
    exact ih (fun d hd => hpre d (by simp [hd]))

theorem findExpiryError_eq_none (all_types : List DocType) (eids : List Nat)
    (docs : List NewDocument)
    (hall : ∀ d ∈ docs, expiryViolation eids d = false) :
    findExpiryError all_types eids docs = none := by
  induction docs with
  | nil => rfl
  | cons p ps ih =>
    have hp : expiryViolation eids p = false := hall p (by simp)
    simp only [findExpiryError, hp, Bool.false_eq_true, if_false]
    exact ih (fun d hd => hall d (by simp [hd]))

/-- C5: `handleSubmit` fails with the fixed message and issues no request
when no base identity is selected — that check comes first, regardless of the
attachments; otherwise it scans Pending attachments in order and fails with a
message naming the first violating row's document-type display name; a row
whose type is not expiry-tracked never violates; and when nothing violates, a
network request is issued. -/
theorem submit_validation_spec (all_types : List DocType)
    (expiryDocTypeIds : List Nat) (formData : EmployeeFormData)
    (newDocuments : List NewDocument) (existingDocuments : List ExistingDocument)
    (deletedDocIds : List Nat) (employeeToEditId warrantId : Option Nat) :
    (formData.employee_id = "" →
      handleSubmit false all_types expiryDocTypeIds formData newDocuments
          existingDocuments deletedDocIds employeeToEditId warrantId
        = SubmitOutcome.validationError "An employee must be selected.") ∧
    (formData.employee_id ≠ "" →
      ∀ pre doc post, newDocuments = pre ++ doc :: post →
        (∀ d ∈ pre, expiryViolation expiryDocTypeIds d = false) →
        expiryViolation expiryDocTypeIds doc = true →
        handleSubmit false all_types expiryDocTypeIds formData newDocuments
            existingDocuments deletedDocIds employeeToEditId warrantId
          = SubmitOutcome.validationError (expiryErrorMsg all_types doc)) ∧
    (formData.employee_id ≠ "" →
      (∀ d ∈ newDocuments, expiryViolation expiryDocTypeIds d = false) →
      handleSubmit false all_types expiryDocTypeIds formData newDocuments
          existingDocuments deletedDocIds employeeToEditId warrantId
        = SubmitOutcome.request (buildSubmission formData newDocuments
            existingDocuments deletedDocIds employeeToEditId warrantId)) ∧
    (∀ doc ty, all_types.find? (fun t => toString t.system_id == doc.doc_type_id)
        = some ty →
      expiryErrorMsg all_types doc
        = "Expiry date is required for document type \"" ++ ty.name ++ "\".") ∧
    (∀ doc : NewDocument,
      (∀ n, parseIntJS doc.doc_type_id = some n → n ∉ expiryDocTypeIds) →
      expiryViolation expiryDocTypeIds doc = false) ∧
    (∀ msg payload,
      SubmitOutcome.validationError msg ≠ SubmitOutcome.request payload) := by
  refine ⟨?_, ?_, ?_, ?_, ?_, ?_⟩
  · intro hemp
    have hb : (formData.employee_id == "") = true := beq_iff_eq.mpr hemp
    simp [handleSubmit, hb]
  · intro hemp pre doc post hsplit hpre hdoc
    have hb : (formData.employee_id == "") = false := beq_eq_false_iff_ne.mpr hemp
    subst hsplit
    simp [handleSubmit, hb, findExpiryError_eq_first all_types expiryDocTypeIds pre doc post hpre hdoc]
  · intro hemp hall
    have hb : (formData.employee_id == "") = false := beq_eq_false_iff_ne.mpr hemp
    simp [handleSubmit, hb,
      findExpiryError_eq_none all_types expiryDocTypeIds newDocuments hall]
  · intro doc ty hfind
    simp [expiryErrorMsg, hfind]
  · intro doc h
    cases hp : parseIntJS doc.doc_type_id with
    | none => simp [expiryViolation, hp]
    | some n => simp [expiryViolation, hp, h n hp]
  · intro msg payload h
    exact SubmitOutcome.noConfusion h

/-- Witness for C5: with types `{1 ↦ Judicial Card (expiry-tracked), 2 ↦
Other (not tracked)}`, a Pending row of type 1 without expiry fails naming
the display name, and a row of type 2 without expiry passes validation and
reaches the request. -/
theorem submit_validation_spec_witness :
    handleSubmit false [⟨1, "Judicial Card"⟩, ⟨2, "Other"⟩] [1]
        ⟨"42", "J", "", "E1", "", "", "", "", "", "", "", "", ""⟩
        [⟨"1", "Judicial Card", none, "", []⟩] [] [] none none
      = SubmitOutcome.validationError
          "Expiry date is required for document type \"Judicial Card\"." ∧
    (∃ payload,
      handleSubmit false [⟨1, "Judicial Card"⟩, ⟨2, "Other"⟩] [1]
          ⟨"42", "J", "", "E1", "", "", "", "", "", "", "", "", ""⟩
          [⟨"2", "Other", some "f.pdf", "", []⟩] [] [] none none
        = SubmitOutcome.request payload) := by
  constructor
  · have h := (submit_validation_spec [⟨1, "Judicial Card"⟩, ⟨2, "Other"⟩] [1]
      ⟨"42", "J", "", "E1", "", "", "", "", "", "", "", "", ""⟩
      [⟨"1", "Judicial Card", none, "", []⟩] [] [] none none).2.1
      (by decide) [] ⟨"1", "Judicial Card", none, "", []⟩ [] rfl
      (by intro d hd; simp at hd) (by decide)
    rw [h]
    have : expiryErrorMsg [⟨1, "Judicial Card"⟩, ⟨2, "Other"⟩]
        ⟨"1", "Judicial Card", none, "", []⟩
        = "Expiry date is required for document type \"Judicial Card\"." := by decide
    rw [this]
  · exact ⟨_, (submit_validation_spec [⟨1, "Judicial Card"⟩, ⟨2, "Other"⟩] [1]
      ⟨"42", "J", "", "E1", "", "", "", "", "", "", "", "", ""⟩
      [⟨"2", "Other", some "f.pdf", "", []⟩] [] [] none none).2.2.1
      (by decide) (by intro d hd; simp at hd; subst hd; decide)⟩

/-! ## C10 -/

theorem docEntries_file_count (n : Nat) (d : NewDocument) :
    ((docEntries n d).filter (fun e => isFileValue e.2)).length
      = if rowIncluded d then 1 else 0 := by
  cases hf : d.file with
  | none => simp [docEntries, rowIncluded, hf]
  | some f =>
    by_cases ht : d.doc_type_id = ""
    · have hb : (d.doc_type_id == "") = true := beq_iff_eq.mpr ht
      simp [docEntries, rowIncluded, hf, hb, ht]
    · have hb : (d.doc_type_id == "") = false := beq_eq_false_iff_ne.mpr ht
      have hleg : (d.legislation_ids.map (fun legId =>
          ((s!"new_documents[{n}][legislation_ids][]" : String),
            FormValue.str legId))).filter (fun e => isFileValue e.2) = [] := by
        rw [List.filter_eq_nil_iff]
        intro e he
        obtain ⟨l, _, rfl⟩ := List.mem_map.mp he
        simp [isFileValue]
      simp [docEntries, rowIncluded, hf, hb, ht, List.filter_append, hleg, isFileValue]

theorem serialize_file_count_aux (n : Nat) (docs : List NewDocument) :
    (((List.enumFrom n docs).map (fun p => docEntries p.1 p.2)).flatten.filter
        (fun e => isFileValue e.2)).length
      = (docs.filter rowIncluded).length := by
  induction docs generalizing n with
  | nil => rfl
  | cons d ds ih =>
    simp only [List.enumFrom, List.map_cons, List.flatten_cons, List.filter_append,
      List.length_append, ih, docEntries_file_count, List.filter_cons]
    by_cases hr : rowIncluded d = true <;> simp [hr, Nat.add_comm]

/-- C10: a Pending row contributes multipart entries exactly when it has both
a file and a non-empty type id (rows missing either are omitted, with no
message), each included row keeps its position in the full Pending list as
its multipart index (so transmitted indices need not be contiguous, as the
concrete two-row instance shows), and a row with a type id but no file still
participates in expiry validation. -/
theorem submit_serialization_included (docs : List NewDocument) (i : Nat)
    (doc : NewDocument) :
    (docs[i]? = some doc → rowIncluded doc = true →
      ∀ f, doc.file = some f →
        ((s!"new_documents[{i}][file]" : String), FormValue.file f)
          ∈ serializeNewDocuments docs) ∧
    (rowIncluded doc = false → docEntries i doc = []) ∧
    (((serializeNewDocuments docs).filter (fun e => isFileValue e.2)).length
       = (docs.filter rowIncluded).length) ∧
    (∀ (all_types : List DocType) (eids : List Nat) (fd : EmployeeFormData)
        (ex : List ExistingDocument) (del : List Nat) (edit warr : Option Nat),
      fd.employee_id ≠ "" → expiryViolation eids doc = true →
      handleSubmit false all_types eids fd [doc] ex del edit warr
        = SubmitOutcome.validationError (expiryErrorMsg all_types doc)) ∧
    (serializeNewDocuments
        [⟨"", "", none, "", []⟩, ⟨"5", "Passport", some "p.pdf", "2026-01-01", []⟩]
      = [(("new_documents[1][file]" : String), FormValue.file "p.pdf"),
         ("new_documents[1][doc_type_id]", FormValue.str "5"),
         ("new_documents[1][doc_type_name]", FormValue.str "Passport"),
         ("new_documents[1][expiry]", FormValue.str "2026-01-01")]) := by
  refine ⟨?_, ?_, ?_, ?_, by decide⟩
  · intro hget hinc f hf
    have hmem : (i, doc) ∈ docs.enum :=
      List.mk_mem_enum_iff_getElem?.mpr hget
    have hne : doc.doc_type_id ≠ "" := by
      intro h
      rw [rowIncluded, h] at hinc
      simp at hinc
    have hb : (doc.doc_type_id == "") = false := beq_eq_false_iff_ne.mpr hne
    refine List.mem_flatten.mpr ⟨docEntries i doc, List.mem_map.mpr ⟨(i, doc), hmem, rfl⟩, ?_⟩
    simp [docEntries, hf, hb]
  · intro hexc
    rw [rowIncluded] at hexc
    cases hf : doc.file with
    | none => simp [docEntries, hf]
    | some f =>
      rw [hf] at hexc
      simp only [Option.isSome_some, Bool.true_and] at hexc
      have : doc.doc_type_id = "" := by
        by_contra hne
        rw [bne_eq_false_iff_eq] at hexc
        exact hne hexc
      have hb : (doc.doc_type_id == "") = true := beq_iff_eq.mpr this
      simp [docEntries, hf, hb]
  · rw [serializeNewDocuments, List.enum]
    exact serialize_file_count_aux 0 docs
  · intro all_types eids fd ex del edit warr hemp hviol
    have hb : (fd.employee_id == "") = false := beq_eq_false_iff_ne.mpr hemp
    simp [handleSubmit, hb, findExpiryError, hviol]

/-- Witness for C10: in the two-row Pending list whose first row has no file,
the included second row's file entry carries index 1. -/
theorem submit_serialization_included_witness :
    (("new_documents[1][file]" : String), FormValue.file "p.pdf")
      ∈ serializeNewDocuments
          [⟨"", "", none, "", []⟩, ⟨"5", "Passport", some "p.pdf", "2026-01-01", []⟩] := by
  exact (submit_serialization_included
      [⟨"", "", none, "", []⟩, ⟨"5", "Passport", some "p.pdf", "2026-01-01", []⟩]
      1 ⟨"5", "Passport", some "p.pdf", "2026-01-01", []⟩).1
    (by decide) (by decide) "p.pdf" rfl

/-! ## C6 -/

theorem usedNewFn_eq_some (d : NewDocument) (T : Nat) :
    (match parseIntJS d.doc_type_id with
     | some n =>
       if n != 0 && !(jsIncludes (toLowerStr d.doc_type_name) "other") then some n
       else none
     | none => none) = some T ↔
      parseIntJS d.doc_type_id = some T ∧ T ≠ 0 ∧
        jsIncludes (toLowerStr d.doc_type_name) "other" = false := by
  cases hp : parseIntJS d.doc_type_id with
  | none => simp
  | some n =>
    simp only []
    by_cases hb : (n != 0 && !(jsIncludes (toLowerStr d.doc_type_name) "other")) = true
    · rw [if_pos hb]
      simp only [Bool.and_eq_true, bne_iff_ne, ne_eq, Bool.not_eq_true'] at hb
      simp only [Option.some_inj]
      constructor
      · rintro rfl
        exact ⟨rfl, hb.1, hb.2⟩
      · rintro ⟨h1, _, _⟩
        exact h1
    · rw [if_neg hb]
      simp only [Bool.and_eq_true, bne_iff_ne, ne_eq, Bool.not_eq_true'] at hb
      constructor
      · intro h
        exact absurd h (by simp)
      · rintro ⟨h1, h2, h3⟩
        obtain rfl := Option.some_inj.mp h1
        exact absurd ⟨h2, h3⟩ hb

theorem mem_usedDocTypeIds (ed : List ExistingDocument) (nd : List NewDocument)
    (T : Nat) :
    T ∈ usedDocTypeIds ed nd ↔
      (∃ d ∈ ed, d.doc_type_id = T ∧ jsIncludes (toLowerStr d.doc_name) "other" = false) ∨
      (∃ d ∈ nd, parseIntJS d.doc_type_id = some T ∧ T ≠ 0 ∧
        jsIncludes (toLowerStr d.doc_type_name) "other" = false) := by
  simp only [usedDocTypeIds, List.mem_append, List.mem_map, List.mem_filter,
    List.mem_filterMap, usedNewFn_eq_some, Bool.not_eq_true']
  constructor
  · rintro (⟨d, ⟨hd, hn⟩, rfl⟩ | ⟨d, hd, h⟩)
    · exact Or.inl ⟨d, hd, rfl, hn⟩
    · exact Or.inr ⟨d, hd, h⟩
  · rintro (⟨d, hd, rfl, hn⟩ | ⟨d, hd, h⟩)
    · exact Or.inl ⟨d, ⟨hd, hn⟩, rfl⟩
    · exact Or.inr ⟨d, hd, h⟩

/-- C6: a document-type id used by a non-miscellaneous attachment — a
Persisted row whose `doc_name` does not contain `other`, or a Pending row
with a truthy parsed type id whose `doc_type_name` does not contain `other`
(case-insensitively) — is disabled as an option in every Pending row except
the one currently holding it; a type all of whose occurrences are marked
miscellaneous (names containing `other`) is never disabled, in any row, for
any number of attachments. -/
theorem docType_uniqueness_disable (ed : List ExistingDocument)
    (nd : List NewDocument) (T : Nat) (row : NewDocument) :
    ((∃ d ∈ ed, d.doc_type_id = T ∧ jsIncludes (toLowerStr d.doc_name) "other" = false) →
      toString T ≠ row.doc_type_id →
      docTypeOptionDisabled ed nd T row = true) ∧
    ((∃ d ∈ nd, parseIntJS d.doc_type_id = some T ∧ T ≠ 0 ∧
        jsIncludes (toLowerStr d.doc_type_name) "other" = false) →
      toString T ≠ row.doc_type_id →
      docTypeOptionDisabled ed nd T row = true) ∧
    (toString T = row.doc_type_id → docTypeOptionDisabled ed nd T row = false) ∧
    ((∀ d ∈ ed, d.doc_type_id = T → jsIncludes (toLowerStr d.doc_name) "other" = true) →
     (∀ d ∈ nd, parseIntJS d.doc_type_id = some T →
        jsIncludes (toLowerStr d.doc_type_name) "other" = true) →
      docTypeOptionDisabled ed nd T row = false) := by
  refine ⟨?_, ?_, ?_, ?_⟩
  · intro hmem hne
    have hin : T ∈ usedDocTypeIds ed nd := (mem_usedDocTypeIds ed nd T).mpr (Or.inl hmem)
    simp [docTypeOptionDisabled, hin, hne]
  · intro hmem hne
    have hin : T ∈ usedDocTypeIds ed nd := (mem_usedDocTypeIds ed nd T).mpr (Or.inr hmem)
    simp [docTypeOptionDisabled, hin, hne]
  · intro heq
    simp [docTypeOptionDisabled, heq]
  · intro hed hnd
    have hout : T ∉ usedDocTypeIds ed nd := by
      rw [mem_usedDocTypeIds]
      rintro (⟨d, hd, rfl, hn⟩ | ⟨d, hd, hp, _, hn⟩)
      · rw [hed d hd rfl] at hn
        exact Bool.true_eq_false.mp hn
      · rw [hnd d hd hp] at hn
        exact Bool.true_eq_false.mp hn
    simp [docTypeOptionDisabled, hout]

/-- Witness for C6: type `5` (`Passport`) used by the first Pending row is
disabled in a fresh empty row; type `9` (`Other documents`) used twice stays
enabled everywhere. -/
theorem docType_uniqueness_disable_witness :
    docTypeOptionDisabled []
        [⟨"5", "Passport", none, "", []⟩, ⟨"", "", none, "", []⟩] 5
        ⟨"", "", none, "", []⟩ = true ∧
    docTypeOptionDisabled []
        [⟨"9", "Other documents", none, "", []⟩, ⟨"9", "Other documents", none, "", []⟩] 9
        ⟨"", "", none, "", []⟩ = false := by
  constructor
  · exact (docType_uniqueness_disable []
      [⟨"5", "Passport", none, "", []⟩, ⟨"", "", none, "", []⟩] 5
      ⟨"", "", none, "", []⟩).2.1
      ⟨⟨"5", "Passport", none, "", []⟩, by simp, by decide, by decide, by decide⟩
      (by decide)
  · exact (docType_uniqueness_disable []
      [⟨"9", "Other documents", none, "", []⟩, ⟨"9", "Other documents", none, "", []⟩] 9
      ⟨"", "", none, "", []⟩).2.2.2
      (by intro d hd; simp at hd)
      (by
        intro d hd hp
        simp at hd
        subst hd
        decide)

/-! ## C3 -/

theorem debounceFires_of_fast (ks : List Keystroke) (hne : ks ≠ [])
    (hfast : List.Chain' (fun a b => b.t < a.t + 300) ks) :
    debounceFires ks = [ks.getLast hne] := by
  induction ks with
  | nil => exact absurd rfl hne
  | cons k1 rest ih =>
    cases rest with
    | nil => rfl
    | cons k2 rest2 =>
      have h12 : k2.t < k1.t + 300 := (List.chain'_cons.mp hfast).1
      have hch := (List.chain'_cons.mp hfast).2
      simp only [debounceFires, if_pos h12, List.nil_append]
      rw [ih (by simp) hch]
      rfl

/-- C3 counterexample: two keystrokes 100 ms apart form one burst; with a
request already in flight when the quiet period elapses (`loadingAt` is
`true`), the guard at the top of `fetchEmployees` returns early and the burst
issues *no* fetch — not exactly one fetch with the final text, contradicting
the claim's "regardless of whether another request is already in flight". -/
theorem debounce_claim_counterexample :
    issuedFetches (fun _ => true) (fun _ => true) [⟨0, "a"⟩, ⟨100, "ab"⟩] = [] ∧
    ([] : List String) ≠ ["ab"] := ⟨by decide, by decide⟩

/-- C3 (amended): for a burst of keystrokes each arriving less than 300 ms
after the previous one, exactly one debounce timer survives — the last one —
and, *provided no request is in flight when the quiet period elapses*, the
component issues exactly one fetch whose query is the burst's final text
value; if a request is in flight at that moment, the burst issues no fetch. -/
theorem debounce_single_fetch (loadingAt hasMoreAt : Nat → Bool)
    (ks : List Keystroke) (hne : ks ≠ [])
    (hfast : List.Chain' (fun a b => b.t < a.t + 300) ks) :
    debounceFires ks = [ks.getLast hne] ∧
    (loadingAt ((ks.getLast hne).t + 300) = false →
      issuedFetches loadingAt hasMoreAt ks = [(ks.getLast hne).text]) ∧
    (loadingAt ((ks.getLast hne).t + 300) = true →
      issuedFetches loadingAt hasMoreAt ks = []) := by
  have hf := debounceFires_of_fast ks hne hfast
  refine ⟨hf, ?_, ?_⟩ <;> intro hl <;>
    simp [issuedFetches, hf, fetchSkipped, hl]

/-- Witness for C3: the burst `"a"`, `"ab"` (100 ms apart) with no request in
flight issues the single fetch `"ab"`. -/
theorem debounce_single_fetch_witness :
    issuedFetches (fun _ => false) (fun _ => true) [⟨0, "a"⟩, ⟨100, "ab"⟩] = ["ab"] := by
  have h := (debounce_single_fetch (fun _ => false) (fun _ => true)
    [⟨0, "a"⟩, ⟨100, "ab"⟩] (by decide)
    (by simp [List.chain'_cons])).2.1 rfl
  exact h

/-! ## C4 -/

theorem applyAll_append (init : List Nat) (l1 l2 : List (Bool × List Nat)) :
    applyAll init (l1 ++ l2) = applyAll (applyAll init l1) l2 := by
  induction l1 generalizing init with
  | nil => rfl
  | cons p rest ih =>
    cases p with
    | mk isNew items =>
      simp only [List.cons_append, applyAll]
      exact ih _

theorem runTrace_employees_eq (evs : List SrcEvent) (s : SrcState) :
    (runTrace s evs).employees = applyAll s.employees (appliedResponses s evs) := by
  induction evs generalizing s with
  | nil => rfl
  | cons e es ih =>
    cases e with
    | issue isNew =>
      simp only [runTrace, appliedResponses, List.nil_append]
      rw [ih]
      rfl
    | success k resp =>
      by_cases hk : s.aborted.contains k = true
      · have hstep : srcStep s (SrcEvent.success k resp) = s := by
          simp only [srcStep, hk, reduceIte]
        simp only [runTrace, appliedResponses, hk, if_true, List.nil_append, hstep]
        exact ih s
      · have hk' : s.aborted.contains k = false := by
          simpa using hk
        have hstep : srcStep s (SrcEvent.success k resp) =
            { s with
              employees :=
                if (s.flags.lookup k).getD true then resp.employees
                else s.employees ++ resp.employees,
              hasMore := resp.hasMore } := by
          simp only [srcStep, hk', Bool.false_eq_true, reduceIte]
        simp only [runTrace, appliedResponses, hk', Bool.false_eq_true, if_false,
          List.singleton_append, hstep]
        rw [ih]
        simp only [applyAll]
    | failure k errName =>
      by_cases he : (errName != "AbortError") = true
      · have hstep : srcStep s (SrcEvent.failure k errName) =
            { s with errorLog := s.errorLog ++ [errName] } := by
          simp only [srcStep, he, reduceIte]
        simp only [runTrace, appliedResponses, List.nil_append, hstep]
        rw [ih]
      · have he' : (errName != "AbortError") = false := by simpa using he
        have hstep : srcStep s (SrcEvent.failure k errName) = s := by
          simp only [srcStep, he', Bool.false_eq_true, reduceIte]
        simp only [runTrace, appliedResponses, List.nil_append, hstep]
        exact ih s

/-- C4 counterexample: two traces in which the last non-canceled request is
identical (request 1, appending `[2]`) yet the final `resultItems` differ
(`[1, 2]` vs `[9, 2]`), because the payload applied by the earlier request
also determines the final state.  (Request 0's response is applied before
request 1's `abort()` call reaches its already-settled controller, exactly as
in the browser.)  This refutes "the final resultItems state depends only on
the last non-canceled request"; the cancellation half of the claim is proved
in the amended theorem. -/
theorem searchSource_claim_counterexample :
    (runTrace srcInit
        [SrcEvent.issue true, SrcEvent.success 0 ⟨[1], true⟩,
         SrcEvent.issue false, SrcEvent.success 1 ⟨[2], true⟩]).employees = [1, 2] ∧
    (runTrace srcInit
        [SrcEvent.issue true, SrcEvent.success 0 ⟨[9], true⟩,
         SrcEvent.issue false, SrcEvent.success 1 ⟨[2], true⟩]).employees = [9, 2] ∧
    ([1, 2] : List Nat) ≠ [9, 2] := ⟨by decide, by decide, by decide⟩

/-- C4 (amended): a request whose controller was aborted before its
settlement never touches `resultItems` or `hasMore` (its success is discarded
wholesale and a rejection touches only the error log, where `AbortError`
rejections are swallowed and every other error name is surfaced); the final
`resultItems` is exactly the replay, in issuance order, of the payloads of
the non-canceled applied responses (a reset search replaces, a pagination
response appends) — in particular, whenever the last applied non-canceled
response is a reset search, the final `resultItems` equals its payload
alone. -/
theorem searchSource_cancellation (s : SrcState) (k : Nat) (resp : SrcResponse)
    (errName : String) (evs : List SrcEvent) :
    (s.aborted.contains k = true → srcStep s (SrcEvent.success k resp) = s) ∧
    ((srcStep s (SrcEvent.failure k errName)).employees = s.employees ∧
     (srcStep s (SrcEvent.failure k errName)).hasMore = s.hasMore ∧
     (srcStep s (SrcEvent.failure k errName)).errorLog =
       (if errName ≠ "AbortError" then s.errorLog ++ [errName] else s.errorLog)) ∧
    ((runTrace s evs).employees = applyAll s.employees (appliedResponses s evs)) ∧
    (∀ pre p, appliedResponses s evs = pre ++ [(true, p)] →
      (runTrace s evs).employees = p) := by
  refine ⟨?_, ?_, runTrace_employees_eq evs s, ?_⟩
  · intro hk
    simp only [srcStep, hk, reduceIte]
  · by_cases he : errName = "AbortError"
    · subst he
      refine ⟨rfl, rfl, ?_⟩
      simp [srcStep]
    · have hb : (errName != "AbortError") = true := bne_iff_ne.mpr he
      refine ⟨?_, ?_, ?_⟩ <;> simp [srcStep, hb, he]
  · intro pre p happ
    rw [runTrace_employees_eq, happ, applyAll_append]
    rfl

/-- Witness for C4: request 0 is superseded (aborted) by request 1 before
settling; its late response `[7]` is discarded and the final list is request
1's payload `[3]`. -/
theorem searchSource_cancellation_witness :
    (runTrace srcInit
        [SrcEvent.issue true, SrcEvent.issue true,
         SrcEvent.success 0 ⟨[7], true⟩, SrcEvent.success 1 ⟨[3], true⟩]).employees
      = [3] := by
  exact (searchSource_cancellation srcInit 0 ⟨[7], true⟩ "AbortError"
    [SrcEvent.issue true, SrcEvent.issue true,
     SrcEvent.success 0 ⟨[7], true⟩, SrcEvent.success 1 ⟨[3], true⟩]).2.2.2
    [] [3] (by decide)

/-! ## C7 -/

theorem existingIds_delete (s : ArchiveDocsState) (docId : Nat) :
    existingIds (deleteExistingDoc s docId)
      = (existingIds s).filter (fun id => id != docId) := by
  simp only [existingIds, deleteExistingDoc, List.filter_map]
  rfl

theorem existingIds_toggle (docs : List ExistingDocument) (a b : Nat) :
    (toggleExistingDocLegislation docs a b).map (fun d => d.system_id)
      = docs.map (fun d => d.system_id) := by
  rw [toggleExistingDocLegislation, List.map_map]
  apply List.map_congr_left
  intro d _
  simp only [Function.comp_apply]
  split <;> rfl

theorem docsInv_step {s t : ArchiveDocsState} (hinv : DocsInv s)
    (hstep : ArchiveDocsStep s t) : DocsInv t := by
  obtain ⟨hndE, hndD, hdisj⟩ := hinv
  cases hstep with
  | delete docId hmem =>
    have hnotdel : docId ∉ s.deletedDocIds := fun hc => hdisj docId hc hmem
    refine ⟨?_, ?_, ?_⟩
    · rw [existingIds_delete]
      exact hndE.filter _
    · show (s.deletedDocIds ++ [docId]).Nodup
      rw [List.nodup_append]
      refine ⟨hndD, List.nodup_singleton _, ?_⟩
      intro a ha hb
      simp only [List.mem_singleton] at hb
      subst hb
      exact hnotdel ha
    · intro id hid
      rw [existingIds_delete]
      simp only [List.mem_filter, not_and]
      intro hidE
      simp only [deleteExistingDoc, List.mem_append, List.mem_singleton] at hid
      rcases hid with hid | rfl
      · exact absurd hidE (hdisj id hid)
      · simp
  | toggle a b =>
    refine ⟨?_, hndD, ?_⟩
    · show ((toggleExistingDocLegislation s.existingDocuments a b).map
        (fun d => d.system_id)).Nodup
      rw [existingIds_toggle]
      exact hndE
    · intro id hid
      show id ∉ (toggleExistingDocLegislation s.existingDocuments a b).map
        (fun d => d.system_id)
      rw [existingIds_toggle]
      exact hdisj id hid

theorem docsInv_reach {s t : ArchiveDocsState} (hinv : DocsInv s)
    (hr : ArchiveDocsReach s t) : DocsInv t := by
  induction hr with
  | refl => exact hinv
  | tail _ hbc ih => exact docsInv_step ih hbc

theorem deleted_mono_step {s t : ArchiveDocsState} (h : ArchiveDocsStep s t) :
    ∀ id ∈ s.deletedDocIds, id ∈ t.deletedDocIds := by
  cases h with
  | delete docId hmem =>
    intro id hid
    simp only [deleteExistingDoc, List.mem_append]
    exact Or.inl hid
  | toggle a b =>
    intro id hid
    exact hid

theorem deleted_mono_reach {s t : ArchiveDocsState} (h : ArchiveDocsReach s t) :
    ∀ id ∈ s.deletedDocIds, id ∈ t.deletedDocIds := by
  induction h with
  | refl => exact fun _ hid => hid
  | tail _ hbc ih => exact fun id hid => deleted_mono_step hbc id (ih id hid)

/-- C7: from any hydrate (with distinct Persisted ids) and any sequence of
user operations, no state has an id both in the Persisted list and in
`removedPersistedIds`; removing a currently-Persisted attachment puts its id
into `removedPersistedIds` and out of the Persisted list in the same step,
with the id appearing exactly once; and once marked, the id keeps appearing
exactly once after any further sequence of operations before the next
hydrate. -/
theorem removePersisted_atomic_once (docs : List ExistingDocument)
    (s : ArchiveDocsState)
    (hnd : (existingIds (hydrated docs)).Nodup)
    (hr : ArchiveDocsReach (hydrated docs) s) :
    (∀ id, ¬(id ∈ s.deletedDocIds ∧ id ∈ existingIds s)) ∧
    (∀ docId, docId ∈ existingIds s →
      docId ∈ (deleteExistingDoc s docId).deletedDocIds ∧
      docId ∉ existingIds (deleteExistingDoc s docId) ∧
      (deleteExistingDoc s docId).deletedDocIds.count docId = 1) ∧
    (∀ id, id ∈ s.deletedDocIds → ∀ t, ArchiveDocsReach s t →
      t.deletedDocIds.count id = 1) := by
  have hinv0 : DocsInv (hydrated docs) :=
    ⟨hnd, List.nodup_nil, by simp [hydrated]⟩
  have hinv : DocsInv s := docsInv_reach hinv0 hr
  obtain ⟨hndE, hndD, hdisj⟩ := hinv
  refine ⟨?_, ?_, ?_⟩
  · rintro id ⟨h1, h2⟩
    exact hdisj id h1 h2
  · intro docId hmem
    have hnotdel : docId ∉ s.deletedDocIds := fun hc => hdisj docId hc hmem
    refine ⟨?_, ?_, ?_⟩
    · simp [deleteExistingDoc]
    · rw [existingIds_delete]
      intro hc
      rw [List.mem_filter] at hc
      simp at hc
    · show (s.deletedDocIds ++ [docId]).count docId = 1
      rw [List.count_append, List.count_eq_zero_of_not_mem hnotdel]
      simp
  · intro id hid t hrt
    have hinvT : DocsInv t := docsInv_reach ⟨hndE, hndD, hdisj⟩ hrt
    have hmemT : id ∈ t.deletedDocIds := deleted_mono_reach hrt id hid
    exact List.count_eq_one_of_mem hinvT.2.1 hmemT

/-- Witness for C7: deleting the only Persisted attachment (id 10) of a
freshly hydrated record marks it exactly once and removes it from the
Persisted list. -/
theorem removePersisted_atomic_once_witness :
    (deleteExistingDoc (hydrated [⟨10, 1, none, 7, [], "Judicial Card"⟩]) 10).deletedDocIds.count 10
      = 1 ∧
    10 ∉ existingIds (deleteExistingDoc (hydrated [⟨10, 1, none, 7, [], "Judicial Card"⟩]) 10) := by
  have h := (removePersisted_atomic_once [⟨10, 1, none, 7, [], "Judicial Card"⟩]
    (hydrated [⟨10, 1, none, 7, [], "Judicial Card"⟩]) (by decide)
    Relation.ReflTransGen.refl).2.1 10 (by decide)
  exact ⟨h.2.2, h.2.1⟩

end EDMS
